import Mathlib

/-!
Shallow embedding of the Secure Command Link Engine of the
GhostMicro/micro-NA_Firmware repository, together with theorems checking its
natural-language specification against the code.

Components embedded (each from the corresponding C/C++ source file):
 - `FailsafeManager` (src/FailsafeManager.cpp): link-liveness state machine.
 - `RateLimitManager` (src/RateLimitManager.cpp): token-bucket admission.
 - `EncryptionManager` (src/EncryptionManager.cpp): AES-256-CTR wrapper; the
   AES block permutation itself lives in mbedtls and is taken as a parameter,
   while the CTR keystream loop of `mbedtls_aes_crypt_ctr` is embedded.
 - `HMACValidator` (src/HMACValidator.cpp): HMAC-SHA256 wrapper with a
   constant-time tag comparison; the hash is a parameter, the comparison and
   the guard logic are embedded.
 - `KeyExchangeManager` (src/KeyExchangeManager.cpp): ECDH session state
   machine over an abstract commutative group of curve points.
 - `OnDataRecv` control-frame branch (src/main.cpp): the inbound pipeline,
   instrumented with an event trace recording the order of component calls.

Machine integers are modelled as `Nat` with an explicit `% 2 ^ 32`
(resp. `% 2 ^ 8`) wherever the C code can wrap.
-/

def U32_MOD : Nat := 2 ^ 32

def U8_MOD : Nat := 2 ^ 8

/-! ## FailsafeManager (src/FailsafeManager.cpp, src/FailsafeManager.h) -/

/-- `enum FailsafeState` from FailsafeManager.h. -/
inductive FailsafeState
  | idle
  | armed
  | signalLoss
  | emergency
  deriving DecidableEq, Repr

/-- Fields of `class FailsafeManager` (FailsafeManager.h lines 77-83). -/
structure Failsafe where
  currentState : FailsafeState
  previousState : FailsafeState
  lastPacketTime : Nat
  stateChangeTime : Nat
  ledBlinkTime : Nat
  totalPackets : Nat
  invalidHmacPackets : Nat
  deriving DecidableEq, Repr

/-- `SIGNAL_LOSS_THRESHOLD` (FailsafeManager.h line 85). -/
def SIGNAL_LOSS_THRESHOLD : Nat := 500

/-- `FAILSAFE_THRESHOLD` (FailsafeManager.h line 86). -/
def FAILSAFE_THRESHOLD : Nat := 2000

namespace Failsafe

/-- The constructor `FailsafeManager::FailsafeManager()`: everything zeroed,
state `FAILSAFE_IDLE`. -/
def mk0 : Failsafe :=
  { currentState := .idle
    previousState := .idle
    lastPacketTime := 0
    stateChangeTime := 0
    ledBlinkTime := 0
    totalPackets := 0
    invalidHmacPackets := 0 }

/-- `FailsafeManager::setup()`: records `millis()` (passed here as `now`) as
the last-packet and state-change time.  The GPIO side effects are I/O and not
modelled. -/
def setup (now : Nat) (fs : Failsafe) : Failsafe :=
  { fs with lastPacketTime := now, stateChangeTime := now }

/-- `FailsafeManager::recordPacketReceived(timestamp, hmacValid)`; `now` is
the value `millis()` would return, used when `timestamp == 0`. -/
def recordPacketReceived (now timestamp : Nat) (hmacValid : Bool)
    (fs : Failsafe) : Failsafe :=
  let timestamp := if timestamp = 0 then now else timestamp
  let fs := { fs with totalPackets := (fs.totalPackets + 1) % U32_MOD }
  if !hmacValid then
    { fs with invalidHmacPackets := (fs.invalidHmacPackets + 1) % U32_MOD }
  else
    { fs with lastPacketTime := timestamp }

/-- `FailsafeManager::update(currentTime)`; `now` is the value `millis()`
would return, used when `currentTime == 0`.  The uint32 subtraction
`currentTime - lastPacketTime` is modelled with wraparound.  The LED update
and serial logging are I/O and not modelled. -/
def update (now currentTime : Nat) (fs : Failsafe) : Failsafe :=
  let currentTime := if currentTime = 0 then now else currentTime
  let timeSincePacket := (currentTime + U32_MOD - fs.lastPacketTime) % U32_MOD
  let newState :=
    if timeSincePacket < SIGNAL_LOSS_THRESHOLD then FailsafeState.armed
    else if timeSincePacket < FAILSAFE_THRESHOLD then FailsafeState.signalLoss
    else FailsafeState.emergency
  if newState ≠ fs.currentState then
    { fs with previousState := fs.currentState
              currentState := newState
              stateChangeTime := currentTime }
  else fs

end Failsafe

/-! ## RateLimitManager (src/RateLimitManager.cpp, src/RateLimitManager.h) -/

/-- `RATE_LIMIT_CAPACITY` (RateLimitManager.h). -/
def RATE_LIMIT_CAPACITY : Nat := 100

/-- `enum RateLimitStatus` (RateLimitManager.h). -/
inductive RateLimitStatus
  | allowed
  | exceeded
  | cooldown
  | blocked
  deriving DecidableEq, Repr

/-- `RateLimitState` (RateLimitManager.cpp lines 18-25).  `tokens` and
`capacity` are `uint8_t`; the counters and timestamp are `uint32_t`. -/
structure RateLimitState where
  tokens : Nat
  capacity : Nat
  lastRefillTime : Nat
  totalAllowed : Nat
  totalBlocked : Nat
  initialized : Bool
  deriving DecidableEq, Repr

/-- The static initializer `gRateLimitState = {...}` (lines 27-34). -/
def rateLimitState0 : RateLimitState :=
  { tokens := 0
    capacity := RATE_LIMIT_CAPACITY
    lastRefillTime := 0
    totalAllowed := 0
    totalBlocked := 0
    initialized := false }

/-- `RateLimitManager_init(initialTokens)`; `now` stands for `millis()`.
Returns the C `bool` result paired with the new state.  The per-command
limit table reset is bookkeeping with no enforced behavior and is not
modelled. -/
def RateLimitManager_init (now initialTokens : Nat) (st : RateLimitState) :
    Bool × RateLimitState :=
  if initialTokens > RATE_LIMIT_CAPACITY then (false, st)
  else
    (true,
     { tokens := initialTokens
       capacity := RATE_LIMIT_CAPACITY
       lastRefillTime := now
       totalAllowed := 0
       totalBlocked := 0
       initialized := true })

/-- `RateLimitManager_checkCommand(commandType)`; `now` stands for
`millis()`.  The refill count `uint8_t refillCount = elapsed / 10` truncates
to 8 bits, and `tokens += refillCount` is 8-bit arithmetic; both are modelled
with `% U8_MOD`.  The per-command limit branch is empty in the source
("Phase 9" placeholder) and has no effect. -/
def RateLimitManager_checkCommand (now commandType : Nat)
    (st : RateLimitState) : RateLimitStatus × RateLimitState :=
  if !st.initialized then (.blocked, st)
  else
    let elapsed := (now + U32_MOD - st.lastRefillTime) % U32_MOD
    let st :=
      if elapsed ≥ 10 then
        let refillCount := (elapsed / 10) % U8_MOD
        let tokens := (st.tokens + refillCount) % U8_MOD
        let tokens := if tokens > st.capacity then st.capacity else tokens
        { st with tokens := tokens
                  lastRefillTime :=
                    (st.lastRefillTime + refillCount * 10) % U32_MOD }
      else st
    if st.tokens = 0 then
      (.exceeded, { st with totalBlocked := (st.totalBlocked + 1) % U32_MOD })
    else
      (.allowed,
       { st with tokens := st.tokens - 1
                 totalAllowed := (st.totalAllowed + 1) % U32_MOD })

/-- `RateLimitManager_refill()`: deprecated, returns the token count without
mutating anything. -/
def RateLimitManager_refill (st : RateLimitState) : Nat × RateLimitState :=
  (st.tokens, st)

/-- `RateLimitManager_getTokens()`. -/
def RateLimitManager_getTokens (st : RateLimitState) : Nat := st.tokens

/-- `RateLimitManager_reset()`. -/
def RateLimitManager_reset (st : RateLimitState) : RateLimitState :=
  { st with tokens := st.capacity
            lastRefillTime := 0
            totalAllowed := 0
            totalBlocked := 0 }

/-- One call in a client-visible sequence of rate-limiter operations. -/
inductive RlOp
  | initOp (now initialTokens : Nat)
  | check (now commandType : Nat)
  | refill
  | reset
  deriving Repr

/-- Apply one rate-limiter operation to the state (result values dropped). -/
def RlOp.apply (st : RateLimitState) : RlOp → RateLimitState
  | .initOp now t => (RateLimitManager_init now t st).2
  | .check now c => (RateLimitManager_checkCommand now c st).2
  | .refill => (RateLimitManager_refill st).2
  | .reset => RateLimitManager_reset st

/-- State after a sequence of rate-limiter operations from boot. -/
def runRlOps (ops : List RlOp) : RateLimitState :=
  ops.foldl RlOp.apply rateLimitState0

/-! ## EncryptionManager (src/EncryptionManager.cpp, src/EncryptionManager.h)

The AES-256 block permutation is provided by mbedtls
(`mbedtls_aes_crypt_ecb`), an external library, and is abstracted as a
function parameter `block : List Nat → List Nat` (key schedule already
applied).  The byte loop of `mbedtls_aes_crypt_ctr` — keystream generation,
big-endian counter increment, per-byte XOR, `nc_off` arithmetic — is embedded
directly. -/

/-- `AES_MAX_PAYLOAD` (EncryptionManager.h). -/
def AES_MAX_PAYLOAD : Nat := 64

/-- Mutable loop state of `mbedtls_aes_crypt_ctr`: the `nonce_counter`
buffer, the cached `stream_block`, and the intra-block offset `nc_off`. -/
structure CtrState where
  nonceCounter : List Nat
  streamBlock : List Nat
  ncOff : Nat
  deriving DecidableEq, Repr

/-- Little-endian byte increment with carry (bytes are `Nat` values; a byte
equal to 255 wraps to 0 and carries). -/
def incBytesLE : List Nat → List Nat
  | [] => []
  | b :: bs => if b + 1 ≥ 256 then 0 :: incBytesLE bs else (b + 1) :: bs

/-- The counter increment of `mbedtls_aes_crypt_ctr`: `++nonce_counter[i-1]`
from the last byte towards the first, stopping at the first byte that does
not wrap. -/
def incCounter (counter : List Nat) : List Nat :=
  (incBytesLE counter.reverse).reverse

/-- The per-byte loop of `mbedtls_aes_crypt_ctr`: when `nc_off` is zero, a
fresh `stream_block` is produced from the current counter and the counter is
incremented; each data byte is XORed with `stream_block[nc_off]` and
`nc_off` advances mod 16. -/
def ctrLoop (block : List Nat → List Nat) :
    CtrState → List Nat → List Nat × CtrState
  | st, [] => ([], st)
  | st, c :: rest =>
    let st1 :=
      if st.ncOff = 0 then
        { st with streamBlock := block st.nonceCounter
                  nonceCounter := incCounter st.nonceCounter }
      else st
    let o := c ^^^ st1.streamBlock.getD st1.ncOff 0
    let res := ctrLoop block { st1 with ncOff := (st1.ncOff + 1) % 16 } rest
    (o :: res.1, res.2)

/-- Internal state `gEncryptionState` of EncryptionManager.cpp (the
entropy/DRBG contexts and the last-error string are I/O and not
modelled). -/
structure EncState where
  key : List Nat
  initialized : Bool
  deriving DecidableEq, Repr

/-- The static initializer of `gEncryptionState`. -/
def encState0 : EncState := { key := [], initialized := false }

/-- `EncryptionManager_init(key)`; `entropyOk` stands for the result of
`mbedtls_ctr_drbg_seed` and the null-pointer check is subsumed by the total
`List` argument.  Only the first 32 bytes of the key are copied
(`memcpy(..., AES_256_KEY_SIZE)`). -/
def EncryptionManager_init (entropyOk : Bool) (key : List Nat)
    (st : EncState) : Bool × EncState :=
  if !entropyOk then (false, st)
  else (true, { key := key.take 32, initialized := true })

/-- `EncryptionManager_encrypt(plaintext, len, iv, ciphertext)`.  Returns
`none` exactly when the C function returns `false` (oversized payload or
uninitialized state).  On success it returns the ciphertext paired with the
caller's IV buffer, which the C code protects by copying into `iv_copy`
before the CTR loop mutates it — hence the second component is the unchanged
input `iv`. -/
def EncryptionManager_encrypt (block : List Nat → List Nat → List Nat)
    (st : EncState) (plaintext iv : List Nat) :
    Option (List Nat × List Nat) :=
  if plaintext.length > AES_MAX_PAYLOAD then none
  else if !st.initialized then none
  else
    let ivCopy := iv
    let res := ctrLoop (block st.key)
      { nonceCounter := ivCopy, streamBlock := List.replicate 16 0
        ncOff := 0 } plaintext
    some (res.1, iv)

/-- `EncryptionManager_decrypt`: literally `return
EncryptionManager_encrypt(ciphertext, len, iv, plaintext);` (CTR is
self-inverse). -/
def EncryptionManager_decrypt (block : List Nat → List Nat → List Nat)
    (st : EncState) (ciphertext iv : List Nat) :
    Option (List Nat × List Nat) :=
  EncryptionManager_encrypt block st ciphertext iv

/-- `EncryptionManager_isReady()`. -/
def EncryptionManager_isReady (st : EncState) : Bool := st.initialized

/-! ## HMACValidator (src/HMACValidator.cpp, src/HMACValidator.h)

HMAC-SHA256 itself is computed by mbedtls (`mbedtls_md_hmac`) and is
abstracted as a parameter `hmacFn : List Nat → List Nat → List Nat`
(secret, data ↦ 32-byte tag); the guard logic and the constant-time
comparison are embedded. -/

/-- `HMAC_SHA256_SIZE` (HMACValidator.h). -/
def HMAC_SHA256_SIZE : Nat := 32

/-- `HMAC_MAX_PAYLOAD` (HMACValidator.h). -/
def HMAC_MAX_PAYLOAD : Nat := 64

/-- Internal state `gHMACState` of HMACValidator.cpp (last-error string not
modelled). -/
structure HmacState where
  secret : List Nat
  initialized : Bool
  deriving DecidableEq, Repr

/-- The static initializer of `gHMACState`. -/
def hmacState0 : HmacState := { secret := [], initialized := false }

/-- `HMACValidator_init(secret)`: copies the first 32 bytes of the secret. -/
def HMACValidator_init (secret : List Nat) (st : HmacState) :
    Bool × HmacState :=
  (true, { secret := secret.take 32, initialized := true })

/-- `HMACValidator_generate(data, dataLen, hmac)`: `none` when the C
function returns `false` (oversized payload or uninitialized), otherwise the
32-byte tag produced by `mbedtls_md_hmac`. -/
def HMACValidator_generate (hmacFn : List Nat → List Nat → List Nat)
    (st : HmacState) (data : List Nat) : Option (List Nat) :=
  if data.length > HMAC_MAX_PAYLOAD then none
  else if !st.initialized then none
  else some (hmacFn st.secret data)

/-- `HMACValidator_constantTimeCompare(hmac1, hmac2)`: ORs together the XOR
of all `HMAC_SHA256_SIZE` byte pairs, never short-circuiting, and tests the
accumulator against zero. -/
def HMACValidator_constantTimeCompare (hmac1 hmac2 : List Nat) : Bool :=
  ((List.range HMAC_SHA256_SIZE).foldl
    (fun result i => result ||| (hmac1.getD i 0 ^^^ hmac2.getD i 0)) 0) = 0

/-- `HMACValidator_validate(data, dataLen, receivedHmac)`: recomputes the
tag and compares in constant time; any failure yields `false`. -/
def HMACValidator_validate (hmacFn : List Nat → List Nat → List Nat)
    (st : HmacState) (data receivedHmac : List Nat) : Bool :=
  if !st.initialized then false
  else
    match HMACValidator_generate hmacFn st data with
    | none => false
    | some expected => HMACValidator_constantTimeCompare expected receivedHmac

/-! ## KeyExchangeManager (src/KeyExchangeManager.cpp)

The elliptic-curve arithmetic is done by mbedtls over NIST P-256.  Curve
points are abstracted as a type `Point` with the (true) P-256 group
structure `[AddCommMonoid Point]`; `G` is the base point used by
`mbedtls_ecp_gen_keypair`, `rawCoords` is the 64-byte X‖Y affine encoding,
`decodeRaw` its (partial) inverse used on import, and `xCoord` the 32-byte
x-coordinate extraction performed by `mbedtls_ecdh_calc_secret`.  The
session state machine, the 0x04 marker stripping/re-adding, and the scalar
arithmetic `Q = d • G`, `secret = x(d • Qp)` are embedded. -/

/-- `KeyExchangeState` from KeyExchangeManager.h (`KX_STATE_*`). -/
inductive KxState
  | idle
  | generatingKeys
  | waitForPeerPubkey
  | computingSecret
  | keyEstablished
  | failed
  deriving DecidableEq, Repr

/-- Session state of `KeyExchangeManager`: `_state`, `_initialized`, the
ephemeral scalar `_ctx.d`, the own public point `_ctx.Q`, and
`_sharedSecret`. -/
structure KxSession (Point : Type) where
  state : KxState
  initialized : Bool
  d : Nat
  Q : Option Point
  sharedSecret : List Nat
  deriving Repr

/-- `mbedtls_ecp_point_write_binary` with `MBEDTLS_ECP_PF_UNCOMPRESSED`:
the 0x04 marker byte followed by the raw X‖Y coordinates. -/
def ecpPointWriteBinary {Point : Type} (rawCoords : Point → List Nat)
    (q : Point) : List Nat :=
  4 :: rawCoords q

/-- `mbedtls_ecp_point_read_binary`: accepts only the uncompressed format
(leading 0x04) and fails closed otherwise. -/
def ecpPointReadBinary {Point : Type} (decodeRaw : List Nat → Option Point) :
    List Nat → Option Point
  | 4 :: rest => decodeRaw rest
  | _ => none

namespace KeyExchangeManager

variable {Point : Type} [AddCommMonoid Point]

/-- The constructor: `_state(KX_STATE_IDLE), _initialized(false)`. -/
def mk0 : KxSession Point :=
  { state := .idle, initialized := false, d := 0, Q := none
    sharedSecret := List.replicate 32 0 }

/-- `KeyExchangeManager::init()`; `entropyOk` stands for the result of
`mbedtls_ctr_drbg_seed` (the ECDH setup failure path is analogous and
folded into the same flag). -/
def init (entropyOk : Bool) (s : KxSession Point) : Bool × KxSession Point :=
  if s.initialized then (true, s)
  else if entropyOk then (true, { s with initialized := true })
  else (false, s)

/-- `KeyExchangeManager::reset()`: when initialized, the ECDH context is
freed and re-created (wiping `d` and `Q`); the state returns to idle and the
shared secret is zeroed. -/
def reset (s : KxSession Point) : KxSession Point :=
  let s :=
    if s.initialized then { s with d := 0, Q := (none : Option Point) } else s
  { s with state := .idle, sharedSecret := List.replicate 32 0 }

/-- `KeyExchangeManager::generateKeyPair()`: `d` is the random scalar drawn
by `mbedtls_ecp_gen_keypair` and `genOk` stands for that call's success;
on success `Q := d • G` and the state becomes `WAIT_FOR_PEER_PUBKEY`. -/
def generateKeyPair (G : Point) (entropyOk genOk : Bool) (d : Nat)
    (s : KxSession Point) : Bool × KxSession Point :=
  let initRes := init entropyOk s
  if !initRes.1 then (false, s)
  else
    let s := { initRes.2 with state := KxState.generatingKeys }
    if !genOk then (false, { s with state := .failed })
    else
      (true, { s with state := .waitForPeerPubkey, d := d, Q := some (d • G) })

/-- `KeyExchangeManager::getPublicKey(buffer)`: exports `Q` uncompressed and
strips the leading 0x04, yielding the raw 64-byte X‖Y. -/
def getPublicKey (rawCoords : Point → List Nat) (s : KxSession Point) :
    Option (List Nat) :=
  if s.state = .idle ∨ s.state = .failed then none
  else
    match s.Q with
    | none => none
    | some q => some ((ecpPointWriteBinary rawCoords q).drop 1)

/-- `KeyExchangeManager::computeSharedSecret(peerPublicKey)`: re-adds the
0x04 marker, imports the peer point (failing closed to `KX_STATE_FAILED`),
and keeps the x-coordinate of `d • Qp` as the 32-byte shared secret. -/
def computeSharedSecret (xCoord : Point → List Nat)
    (decodeRaw : List Nat → Option Point) (peer : List Nat)
    (s : KxSession Point) : Bool × KxSession Point :=
  if !s.initialized then (false, s)
  else
    let s := { s with state := KxState.computingSecret }
    match ecpPointReadBinary decodeRaw (4 :: peer) with
    | none => (false, { s with state := .failed })
    | some qp =>
      (true, { s with sharedSecret := xCoord (s.d • qp)
                      state := .keyEstablished })

/-- `KeyExchangeManager::getSharedSecret(buffer)`. -/
def getSharedSecret (s : KxSession Point) : Option (List Nat) :=
  if s.state ≠ KxState.keyEstablished then none else some s.sharedSecret

end KeyExchangeManager

/-! ## Inbound packet pipeline (src/main.cpp, `OnDataRecv`, control branch)

`NAPacket` itself is declared in the repository's missing `NAPacket.h`; the
fields below are the ones `OnDataRecv` reads.  The 10-byte region
`throttle..buttons` that main.cpp decrypts in place
(`uint16_t payloadLen = 10`) is modelled as the byte list `payload`, with
the mode byte at offset 8 (after four 2-byte axes).  `NA_PACKET_IS_VALID`
is likewise only declared in the missing header and is abstracted as a
boolean parameter `packetIsValid`. -/

structure Packet where
  protocolVersion : Nat
  vehicleType : Nat
  payload : List Nat
  sequenceNumber : Nat
  encryptionFlag : Nat
  iv : List Nat
  hmac : List Nat
  checksum : Nat
  deriving DecidableEq, Repr

/-- The `mode` byte of the frame as received, at offset 8 of the
throttle..buttons region (`pkt.mode` in main.cpp). -/
def Packet.mode (p : Packet) : Nat := p.payload.getD 8 0

/-- One observable step of `OnDataRecv`, in program order: the rate-limiter
call, the `EncryptionManager_decrypt` call, the `HMACValidator_validate`
call, the `NA_PACKET_IS_VALID` check, the report to the failsafe, and the
forwarding of validated values via `vehicle->setInputs`. -/
inductive PipeEvent
  | rateCheck (tag : Nat)
  | decryptCall
  | hmacCheck
  | structCheck
  | failsafeRecord (authenticated : Bool)
  | forward (p : Packet)
  deriving DecidableEq, Repr

/-- Whether an event is the rate-limiter call. -/
def PipeEvent.isRateCheck : PipeEvent → Bool
  | .rateCheck _ => true
  | _ => false

/-- The global state touched by the control branch of `OnDataRecv`. -/
structure PipeEnv where
  rl : RateLimitState
  enc : EncState
  hmacSt : HmacState
  secEncryptionEnabled : Bool
  failsafe : Failsafe
  latestPacket : Packet
  deriving Repr

/-- Result of one control frame: the new global state, the trace of
observable calls in program order, and the values forwarded to the vehicle
collaborator (if any). -/
structure PipeOut where
  env : PipeEnv
  events : List PipeEvent
  forwarded : Option Packet
  deriving Repr

/-- Lines 131-154 of main.cpp: the encryption-flag policy, the in-place
decryption of the 10-byte control payload, and the HMAC validation.
Returns the `valid` flag, the (possibly decrypted) payload, and the events
of the calls made, in order. -/
def encStep (block hmacFn : List Nat → List Nat → List Nat) (e : PipeEnv)
    (pkt : Packet) : Bool × List Nat × List PipeEvent :=
  if pkt.encryptionFlag = 1 then
    if !EncryptionManager_isReady e.enc then (false, pkt.payload, [])
    else
      match EncryptionManager_decrypt block e.enc pkt.payload pkt.iv with
      | none => (false, pkt.payload, [.decryptCall])
      | some res =>
        if HMACValidator_validate hmacFn e.hmacSt res.1 pkt.hmac then
          (true, res.1, [.decryptCall, .hmacCheck])
        else (false, res.1, [.decryptCall, .hmacCheck])
  else if e.secEncryptionEnabled || EncryptionManager_isReady e.enc then
    -- `requireEncryption`: reject unencrypted frames in secure mode
    (false, pkt.payload, [])
  else (true, pkt.payload, [])

/-- The `len == sizeof(NAPacket)` branch of `OnDataRecv` (main.cpp lines
118-166): rate limit first; then the encryption-flag policy, in-place
decryption and HMAC validation; then structural validation; accept or
reject.  `now` stands for `millis()`. -/
def onDataRecvControl (block : List Nat → List Nat → List Nat)
    (hmacFn : List Nat → List Nat → List Nat) (packetIsValid : Packet → Bool)
    (now : Nat) (pkt : Packet) (e : PipeEnv) : PipeOut :=
  let tag := pkt.mode
  let rc := RateLimitManager_checkCommand now tag e.rl
  let e := { e with rl := rc.2 }
  if rc.1 ≠ RateLimitStatus.allowed then
    { env :=
        { e with
          failsafe := Failsafe.recordPacketReceived now now false e.failsafe }
      events := [.rateCheck tag, .failsafeRecord false]
      forwarded := none }
  else
    let step := encStep block hmacFn e pkt
    let pkt2 := { pkt with payload := step.2.1 }
    if step.1 && packetIsValid pkt2 then
      { env :=
          { e with
            latestPacket := pkt2
            failsafe :=
              Failsafe.recordPacketReceived now now true e.failsafe }
        events := PipeEvent.rateCheck tag :: step.2.2 ++
          [.structCheck, .failsafeRecord true, .forward pkt2]
        forwarded := some pkt2 }
    else
      { env :=
          { e with
            failsafe :=
              Failsafe.recordPacketReceived now now false e.failsafe }
        events := PipeEvent.rateCheck tag :: step.2.2 ++
          (if step.1 then [PipeEvent.structCheck] else []) ++
          [.failsafeRecord false]
        forwarded := none }

/-! ## Theorems: the failsafe state machine (claims C3, C4, C5) -/

/-- The conditional state transition at the end of `update` always lands on
the computed new state. -/
lemma Failsafe.apply_transition (ns : FailsafeState) (fs : Failsafe)
    (ct : Nat) :
    (if ns ≠ fs.currentState then
        { fs with previousState := fs.currentState
                  currentState := ns
                  stateChangeTime := ct }
      else fs).currentState = ns := by
  split
  · rfl
  · next h => exact (not_ne_iff.mp h).symm

/-- The state after `update` is determined by the (wraparound) elapsed time
alone. -/
lemma Failsafe.update_currentState (now t : Nat) (fs : Failsafe) :
    (Failsafe.update now t fs).currentState =
      (if ((if t = 0 then now else t) + U32_MOD - fs.lastPacketTime) %
            U32_MOD < SIGNAL_LOSS_THRESHOLD then FailsafeState.armed
       else if ((if t = 0 then now else t) + U32_MOD - fs.lastPacketTime) %
            U32_MOD < FAILSAFE_THRESHOLD then FailsafeState.signalLoss
       else FailsafeState.emergency) := by
  unfold Failsafe.update
  dsimp only
  exact Failsafe.apply_transition _ fs _

/-- Claim C3, counterexample to the claim as stated: with the last
authenticated packet at time 0, calling `update` at exactly 2000 ms gives
`Emergency`, although 2000 lies in the claim's 500 ms – 2000 ms
`SignalLoss` band. -/
theorem failsafe_update_at_2000_counterexample :
    500 ≤ 2000 - (Failsafe.setup 0 Failsafe.mk0).lastPacketTime ∧
    2000 - (Failsafe.setup 0 Failsafe.mk0).lastPacketTime ≤ 2000 ∧
    (Failsafe.update 2000 2000
        (Failsafe.setup 0 Failsafe.mk0)).currentState ≠
      FailsafeState.signalLoss ∧
    (Failsafe.update 2000 2000
        (Failsafe.setup 0 Failsafe.mk0)).currentState =
      FailsafeState.emergency := by
  decide

/-- Claim C3 (amended): for `update(t)` with nonzero `t` and elapsed time
`e = t - lastPacketTime` (no wraparound), the state is `Armed` for
`e < 500`, `SignalLoss` for `500 ≤ e < 2000`, and `Emergency` for
`e ≥ 2000` (so at exactly 2000 ms the state is already `Emergency`); in
particular, starting with the last authenticated packet at time 0, `update`
at 600 ms yields `SignalLoss` and at 2200 ms yields `Emergency`. -/
theorem failsafe_update_state_by_elapsed (now t : Nat) (fs : Failsafe)
    (ht : t ≠ 0) (hle : fs.lastPacketTime ≤ t)
    (hb : t - fs.lastPacketTime < U32_MOD) :
    ((t - fs.lastPacketTime < 500 →
        (Failsafe.update now t fs).currentState = FailsafeState.armed) ∧
     (500 ≤ t - fs.lastPacketTime → t - fs.lastPacketTime < 2000 →
        (Failsafe.update now t fs).currentState =
          FailsafeState.signalLoss) ∧
     (2000 ≤ t - fs.lastPacketTime →
        (Failsafe.update now t fs).currentState =
          FailsafeState.emergency)) ∧
    (Failsafe.update 600 600 (Failsafe.setup 0 Failsafe.mk0)).currentState =
      FailsafeState.signalLoss ∧
    (Failsafe.update 2200 2200
        (Failsafe.setup 0 Failsafe.mk0)).currentState =
      FailsafeState.emergency := by
  have hct : (if t = 0 then now else t) = t := if_neg ht
  have he : ((if t = 0 then now else t) + U32_MOD - fs.lastPacketTime) %
      U32_MOD = t - fs.lastPacketTime := by
    rw [hct]
    have hrw : t + U32_MOD - fs.lastPacketTime =
        (t - fs.lastPacketTime) + U32_MOD := by omega
    rw [hrw, Nat.add_mod_right]
    exact Nat.mod_eq_of_lt hb
  refine ⟨⟨?_, ?_, ?_⟩, by decide, by decide⟩
  · intro h
    rw [Failsafe.update_currentState, he]
    simp only [SIGNAL_LOSS_THRESHOLD]
    rw [if_pos h]
  · intro h1 h2
    rw [Failsafe.update_currentState, he]
    simp only [SIGNAL_LOSS_THRESHOLD, FAILSAFE_THRESHOLD]
    rw [if_neg (by omega), if_pos h2]
  · intro h
    rw [Failsafe.update_currentState, he]
    simp only [SIGNAL_LOSS_THRESHOLD, FAILSAFE_THRESHOLD]
    rw [if_neg (by omega), if_neg (by omega)]

/-- Witness for `failsafe_update_state_by_elapsed` at elapsed time 600. -/
theorem failsafe_update_state_by_elapsed_witness :
    (Failsafe.update 600 600 Failsafe.mk0).currentState =
      FailsafeState.signalLoss := by
  have h := failsafe_update_state_by_elapsed 600 600 Failsafe.mk0
    (by decide) (by decide) (by decide)
  exact h.1.2.1 (by decide) (by decide)

/-- Claim C4: `recordPacketReceived` with `authenticated = false` leaves the
last-authenticated timestamp and all state-machine fields unchanged while
incrementing both the invalid-HMAC and total-packet counters by one; with
`authenticated = true` and nonzero `t` the timestamp becomes `t`. -/
theorem failsafe_recordPacketReceived_spec (now t : Nat) (fs : Failsafe)
    (h1 : fs.totalPackets + 1 < U32_MOD)
    (h2 : fs.invalidHmacPackets + 1 < U32_MOD) :
    ((Failsafe.recordPacketReceived now t false fs).lastPacketTime =
        fs.lastPacketTime ∧
     (Failsafe.recordPacketReceived now t false fs).invalidHmacPackets =
        fs.invalidHmacPackets + 1 ∧
     (Failsafe.recordPacketReceived now t false fs).totalPackets =
        fs.totalPackets + 1 ∧
     (Failsafe.recordPacketReceived now t false fs).currentState =
        fs.currentState ∧
     (Failsafe.recordPacketReceived now t false fs).previousState =
        fs.previousState ∧
     (Failsafe.recordPacketReceived now t false fs).stateChangeTime =
        fs.stateChangeTime ∧
     (Failsafe.recordPacketReceived now t false fs).ledBlinkTime =
        fs.ledBlinkTime) ∧
    (t ≠ 0 →
      (Failsafe.recordPacketReceived now t true fs).lastPacketTime = t) := by
  constructor
  · unfold Failsafe.recordPacketReceived
    simp [Nat.mod_eq_of_lt h1, Nat.mod_eq_of_lt h2]
  · intro ht
    unfold Failsafe.recordPacketReceived
    simp [ht]

/-- Witness for `failsafe_recordPacketReceived_spec` on the boot state. -/
theorem failsafe_recordPacketReceived_witness :
    (Failsafe.recordPacketReceived 5 7 false Failsafe.mk0).invalidHmacPackets
      = Failsafe.mk0.invalidHmacPackets + 1 ∧
    (Failsafe.recordPacketReceived 5 7 false Failsafe.mk0).lastPacketTime =
      Failsafe.mk0.lastPacketTime ∧
    (Failsafe.recordPacketReceived 5 7 true Failsafe.mk0).lastPacketTime =
      7 := by
  have h := failsafe_recordPacketReceived_spec 5 7 Failsafe.mk0
    (by decide) (by decide)
  exact ⟨h.1.2.1, h.1.1, h.2 (by decide)⟩

/-- Claim C5: after `setup` the machine is still `Idle` with zero packets
recorded, yet the first `update` less than 500 ms later moves it to
`Armed` although no packet was ever recorded; and no `update` call ever
produces `Idle`, so `Idle` is unreachable once `update` has run. -/
theorem failsafe_armed_reachable_without_packets (t0 d : Nat)
    (hd : d < 500) :
    (Failsafe.setup t0 Failsafe.mk0).currentState = FailsafeState.idle ∧
    (Failsafe.setup t0 Failsafe.mk0).totalPackets = 0 ∧
    (Failsafe.update (t0 + d) (t0 + d)
        (Failsafe.setup t0 Failsafe.mk0)).currentState =
      FailsafeState.armed ∧
    ∀ (now t : Nat) (fs : Failsafe),
      (Failsafe.update now t fs).currentState ≠ FailsafeState.idle := by
  refine ⟨rfl, rfl, ?_, ?_⟩
  · rw [Failsafe.update_currentState]
    have hct : (if t0 + d = 0 then t0 + d else t0 + d) = t0 + d := by
      split <;> rfl
    have hlast : (Failsafe.setup t0 Failsafe.mk0).lastPacketTime = t0 := rfl
    rw [hct, hlast]
    have hrw : t0 + d + U32_MOD - t0 = d + U32_MOD := by omega
    have hU : (4294967296 : Nat) = U32_MOD := by decide
    rw [hrw, Nat.add_mod_right, Nat.mod_eq_of_lt (by omega),
      if_pos (by simpa only [SIGNAL_LOSS_THRESHOLD] using hd)]
  · intro now t fs
    rw [Failsafe.update_currentState]
    have chain_ne_idle : ∀ e : Nat,
        (if e < SIGNAL_LOSS_THRESHOLD then FailsafeState.armed
         else if e < FAILSAFE_THRESHOLD then FailsafeState.signalLoss
         else FailsafeState.emergency) ≠ FailsafeState.idle := by
      intro e
      split
      · simp
      · split <;> simp
    exact chain_ne_idle _

/-- Witness for `failsafe_armed_reachable_without_packets` at 100 ms. -/
theorem failsafe_armed_reachable_witness :
    (Failsafe.update 100 100 (Failsafe.setup 0 Failsafe.mk0)).currentState =
      FailsafeState.armed ∧
    (Failsafe.setup 0 Failsafe.mk0).totalPackets = 0 := by
  have h := failsafe_armed_reachable_without_packets 0 100 (by decide)
  exact ⟨h.2.2.1, h.2.1⟩

/-! ## Theorems: the rate limiter (claims C6, C7) -/

/-- Claim C6: the code violates the stated refill law.  `RateLimitManager`
is initialized at time 0 with a full bucket of 100 tokens; a single
`checkCommand` at time 1600 ms should (per the claim/spec) refill
`floor(1600/10) = 160` tokens capped at 100 and then consume one, leaving
99.  Because the C code computes `uint8_t refillCount = elapsed / 10` and
`tokens += refillCount` in 8-bit arithmetic, `100 + 160` wraps to 4, so the
call leaves 3 tokens: a full bucket left idle for 1.6 s loses 96 tokens. -/
theorem rateLimit_refill_uint8_truncation_bug :
    (RateLimitManager_init 0 100 rateLimitState0).2.tokens = 100 ∧
    (RateLimitManager_init 0 100 rateLimitState0).2.lastRefillTime = 0 ∧
    (RateLimitManager_checkCommand 1600 5
        (RateLimitManager_init 0 100 rateLimitState0).2).1 =
      RateLimitStatus.allowed ∧
    (RateLimitManager_checkCommand 1600 5
        (RateLimitManager_init 0 100 rateLimitState0).2).2.tokens = 3 ∧
    (RateLimitManager_checkCommand 1600 5
        (RateLimitManager_init 0 100 rateLimitState0).2).2.tokens ≠ 99 := by
  decide

/-- Each rate-limiter operation preserves `tokens ≤ capacity` and
`capacity = 100`. -/
lemma RlOp.apply_preserves_inv (st : RateLimitState) (op : RlOp)
    (h : st.tokens ≤ st.capacity) (hc : st.capacity = 100) :
    (RlOp.apply st op).tokens ≤ (RlOp.apply st op).capacity ∧
      (RlOp.apply st op).capacity = 100 := by
  cases op with
  | initOp now t =>
    unfold RlOp.apply RateLimitManager_init
    dsimp only
    split
    · exact ⟨h, hc⟩
    · next hgt =>
      refine ⟨?_, rfl⟩
      show t ≤ RATE_LIMIT_CAPACITY
      omega
  | check now c =>
    unfold RlOp.apply RateLimitManager_checkCommand
    dsimp only
    split
    · exact ⟨h, hc⟩
    · split
      · split
        · next hcap =>
          split <;> dsimp only <;> constructor <;> omega
        · next hcap =>
          split <;> dsimp only <;> constructor <;> omega
      · split <;> dsimp only <;> constructor <;> omega
  | refill => exact ⟨h, hc⟩
  | reset =>
    unfold RlOp.apply RateLimitManager_reset
    exact ⟨le_refl _, hc⟩

/-- The invariant holds after any operation sequence from any state
satisfying it. -/
lemma rl_inv_foldl (ops : List RlOp) :
    ∀ st : RateLimitState, st.tokens ≤ st.capacity → st.capacity = 100 →
      (ops.foldl RlOp.apply st).tokens ≤ (ops.foldl RlOp.apply st).capacity ∧
      (ops.foldl RlOp.apply st).capacity = 100 := by
  induction ops with
  | nil => intro st h hc; exact ⟨h, hc⟩
  | cons op rest ih =>
    intro st h hc
    have hstep := RlOp.apply_preserves_inv st op h hc
    exact ih (RlOp.apply st op) hstep.1 hstep.2

/-- Claim C7: over every sequence of `init`, `checkCommand`, `refill` and
`reset` calls from boot, the token count never exceeds the configured
capacity of 100; moreover `reset` sets the count to exactly the capacity. -/
theorem rateLimit_tokens_never_exceed_capacity (ops : List RlOp) :
    (runRlOps ops).tokens ≤ 100 ∧ (runRlOps ops).capacity = 100 ∧
    ∀ st : RateLimitState, (RateLimitManager_reset st).tokens =
      st.capacity := by
  have h := rl_inv_foldl ops rateLimitState0 (by decide) (by decide)
  unfold runRlOps
  exact ⟨le_trans h.1 h.2.le, h.2, fun st => rfl⟩

/-! ## Theorems: the symmetric cipher (claim C8) -/

/-- The CTR byte loop preserves the data length. -/
lemma ctrLoop_length (block : List Nat → List Nat) :
    ∀ (xs : List Nat) (st : CtrState),
      (ctrLoop block st xs).1.length = xs.length := by
  intro xs
  induction xs with
  | nil => intro st; rfl
  | cons x rest ih =>
    intro st
    simp only [ctrLoop, List.length_cons, ih]

/-- Running the CTR byte loop twice from the same state restores the input:
the keystream depends only on the initial state and the byte count, and XOR
is an involution. -/
lemma ctrLoop_roundtrip (block : List Nat → List Nat) :
    ∀ (xs : List Nat) (st : CtrState),
      (ctrLoop block st (ctrLoop block st xs).1).1 = xs := by
  intro xs
  induction xs with
  | nil => intro st; rfl
  | cons x rest ih =>
    intro st
    simp only [ctrLoop]
    simp [Nat.xor_cancel_right, ih]

/-- Claim C8: with the cipher initialized, for every AES block permutation,
key, 16-byte nonce, and payload of length 1..64,
`decrypt(encrypt(p, nonce), nonce) = p`; neither call touches the caller's
nonce (the returned IV component equals the input), and decrypt is the
identical function to encrypt applied to the ciphertext. -/
theorem ctr_encrypt_decrypt_roundtrip (block : List Nat → List Nat → List Nat)
    (st : EncState) (p iv : List Nat) (hinit : st.initialized = true)
    (h1 : 1 ≤ p.length) (h2 : p.length ≤ 64) :
    (∃ ct : List Nat,
      EncryptionManager_encrypt block st p iv = some (ct, iv) ∧
      EncryptionManager_decrypt block st ct iv = some (p, iv)) ∧
    (∀ c i : List Nat,
      EncryptionManager_decrypt block st c i =
        EncryptionManager_encrypt block st c i) := by
  constructor
  · refine ⟨(ctrLoop (block st.key)
      { nonceCounter := iv, streamBlock := List.replicate 16 0
        ncOff := 0 } p).1, ?_, ?_⟩
    · unfold EncryptionManager_encrypt
      have hgt : ¬ (p.length > AES_MAX_PAYLOAD) := by
        simp only [AES_MAX_PAYLOAD]
        omega
      rw [hinit]
      simp only [Bool.not_true, Bool.false_eq_true, if_false, if_neg hgt]
    · unfold EncryptionManager_decrypt EncryptionManager_encrypt
      have hgt : ¬ ((ctrLoop (block st.key)
          { nonceCounter := iv, streamBlock := List.replicate 16 0
            ncOff := 0 } p).1.length > AES_MAX_PAYLOAD) := by
        rw [ctrLoop_length]
        simp only [AES_MAX_PAYLOAD]
        omega
      rw [hinit]
      simp only [Bool.not_true, Bool.false_eq_true, if_false, if_neg hgt]
      rw [ctrLoop_roundtrip]
  · intro c i
    rfl

/-- Witness for `ctr_encrypt_decrypt_roundtrip` with a concrete block
function, key, nonce and payload. -/
theorem ctr_encrypt_decrypt_roundtrip_witness :
    EncryptionManager_decrypt (fun _ c => List.map (fun b => b + 1) c)
        { key := List.replicate 32 0, initialized := true }
        [9, 10, 11] (List.replicate 16 7) =
      some ([1, 2, 3], List.replicate 16 7) := by
  obtain ⟨ct, henc, hdec⟩ := (ctr_encrypt_decrypt_roundtrip
    (fun _ c => List.map (fun b => b + 1) c)
    { key := List.replicate 32 0, initialized := true }
    [1, 2, 3] (List.replicate 16 7) rfl (by decide) (by decide)).1
  have henc2 : EncryptionManager_encrypt
      (fun _ c => List.map (fun b => b + 1) c)
      { key := List.replicate 32 0, initialized := true }
      [1, 2, 3] (List.replicate 16 7) =
      some ([9, 10, 11], List.replicate 16 7) := by decide
  have hct : ct = [9, 10, 11] := by
    have hsome := henc2.symm.trans henc
    simpa using hsome.symm
  rw [hct] at hdec
  exact hdec

/-! ## Theorems: the message authenticator (claim C9) -/

/-- `a ||| b` is zero exactly when both operands are. -/
lemma nat_or_eq_zero_iff (a b : Nat) : a ||| b = 0 ↔ a = 0 ∧ b = 0 := by
  constructor
  · intro h
    constructor
    · apply Nat.eq_of_testBit_eq
      intro i
      have hh := congrArg (fun n => Nat.testBit n i) h
      simp only [Nat.testBit_lor, Nat.zero_testBit] at hh
      simp [Nat.zero_testBit, Bool.or_eq_false_iff.mp hh]
    · apply Nat.eq_of_testBit_eq
      intro i
      have hh := congrArg (fun n => Nat.testBit n i) h
      simp only [Nat.testBit_lor, Nat.zero_testBit] at hh
      simp [Nat.zero_testBit, Bool.or_eq_false_iff.mp hh]
  · rintro ⟨rfl, rfl⟩
    rfl

/-- The OR-accumulating fold is zero exactly when the accumulator and every
contribution are zero. -/
lemma foldl_or_eq_zero_iff (f : Nat → Nat) (l : List Nat) :
    ∀ a : Nat, l.foldl (fun r i => r ||| f i) a = 0 ↔
      a = 0 ∧ ∀ i ∈ l, f i = 0 := by
  induction l with
  | nil => intro a; simp
  | cons x xs ih =>
    intro a
    simp only [List.foldl_cons, ih, nat_or_eq_zero_iff, List.mem_cons]
    constructor
    · rintro ⟨⟨h1, h2⟩, h3⟩
      exact ⟨h1, fun i hi => hi.elim (fun he => he ▸ h2) (h3 i)⟩
    · rintro ⟨h1, h2⟩
      exact ⟨⟨h1, h2 x (Or.inl rfl)⟩, fun i hi => h2 i (Or.inr hi)⟩

/-- The constant-time comparison succeeds exactly when the first 32 bytes
agree pointwise. -/
lemma constantTimeCompare_true_iff (h1 h2 : List Nat) :
    HMACValidator_constantTimeCompare h1 h2 = true ↔
      ∀ i < 32, h1.getD i 0 = h2.getD i 0 := by
  unfold HMACValidator_constantTimeCompare
  rw [decide_eq_true_iff, foldl_or_eq_zero_iff]
  simp only [true_and, List.mem_range, Nat.xor_eq_zero, HMAC_SHA256_SIZE]

/-- Two length-32 lists agreeing pointwise through `getD` are equal. -/
lemma list32_eq_of_getD (h1 h2 : List Nat) (l1 : h1.length = 32)
    (l2 : h2.length = 32) (h : ∀ i < 32, h1.getD i 0 = h2.getD i 0) :
    h1 = h2 := by
  apply List.ext_getElem (by omega)
  intro i hi1 hi2
  have hi := h i (by omega)
  rwa [List.getD_eq_getElem?_getD, List.getD_eq_getElem?_getD,
    List.getElem?_eq_getElem hi1, List.getElem?_eq_getElem hi2] at hi

/-- Claim C9: with the authenticator initialized and the payload within
bounds, `validate(data, tag)` returns true iff `tag` equals the 32-byte
HMAC of `data` under the stored secret; `validate(data, generate(data))`
succeeds; any other 32-byte tag — in particular a tag generated for data
with a different HMAC, or a tag differing in exactly one byte — is
rejected, and the non-short-circuiting comparison itself distinguishes any
two distinct 32-byte tags. -/
theorem hmac_validate_iff (hmacFn : List Nat → List Nat → List Nat)
    (st : HmacState) (data tag : List Nat) (hinit : st.initialized = true)
    (hlen : data.length ≤ 64) (htag : tag.length = 32)
    (hfn : (hmacFn st.secret data).length = 32) :
    (HMACValidator_validate hmacFn st data tag = true ↔
      tag = hmacFn st.secret data) ∧
    HMACValidator_validate hmacFn st data (hmacFn st.secret data) = true ∧
    (∀ tag2 : List Nat, tag2.length = 32 → tag2 ≠ hmacFn st.secret data →
      HMACValidator_validate hmacFn st data tag2 = false) ∧
    (∀ t1 t2 : List Nat, t1.length = 32 → t2.length = 32 → t1 ≠ t2 →
      HMACValidator_constantTimeCompare t1 t2 = false) := by
  have hval : ∀ t : List Nat, HMACValidator_validate hmacFn st data t =
      HMACValidator_constantTimeCompare (hmacFn st.secret data) t := by
    intro t
    unfold HMACValidator_validate HMACValidator_generate
    have hgt : ¬ (data.length > HMAC_MAX_PAYLOAD) := by
      simp only [HMAC_MAX_PAYLOAD]
      omega
    rw [hinit]
    simp only [Bool.not_true, Bool.false_eq_true, if_false, if_neg hgt]
  have hcmp_self : ∀ t : List Nat,
      HMACValidator_constantTimeCompare t t = true := by
    intro t
    rw [constantTimeCompare_true_iff]
    intro i _
    rfl
  have hcmp_ne : ∀ t1 t2 : List Nat, t1.length = 32 → t2.length = 32 →
      t1 ≠ t2 → HMACValidator_constantTimeCompare t1 t2 = false := by
    intro t1 t2 l1 l2 hne
    by_contra hcontra
    rw [Bool.not_eq_false, constantTimeCompare_true_iff] at hcontra
    exact hne (list32_eq_of_getD t1 t2 l1 l2 hcontra)
  refine ⟨?_, ?_, ?_, hcmp_ne⟩
  · rw [hval]
    constructor
    · intro h
      rw [constantTimeCompare_true_iff] at h
      exact (list32_eq_of_getD _ _ hfn htag fun i hi => h i hi).symm
    · rintro rfl
      exact hcmp_self _
  · rw [hval]
    exact hcmp_self _
  · intro tag2 hl2 hne2
    rw [hval]
    exact hcmp_ne _ _ hfn hl2 (fun he => hne2 he.symm)

/-- Witness for `hmac_validate_iff` with a concrete hash function, secret
and payload. -/
theorem hmac_validate_witness :
    HMACValidator_validate
        (fun s d => (List.range 32).map (fun i => (s.sum + d.sum + i) % 256))
        { secret := List.replicate 32 1, initialized := true }
        [1, 2, 3]
        ((fun (s d : List Nat) =>
            (List.range 32).map (fun i => (s.sum + d.sum + i) % 256))
          (List.replicate 32 1) [1, 2, 3]) = true ∧
    HMACValidator_validate
        (fun s d => (List.range 32).map (fun i => (s.sum + d.sum + i) % 256))
        { secret := List.replicate 32 1, initialized := true }
        [1, 2, 3] (List.replicate 32 0) = false := by
  have h := hmac_validate_iff
    (fun s d => (List.range 32).map (fun i => (s.sum + d.sum + i) % 256))
    { secret := List.replicate 32 1, initialized := true }
    [1, 2, 3] (List.replicate 32 0) rfl (by decide) (by decide) (by decide)
  exact ⟨h.2.1, h.2.2.1 (List.replicate 32 0) (by decide) (by decide)⟩

/-! ## Theorems: the key exchange engine (claim C10) -/

/-- Claim C10: two sessions that each successfully generate an ephemeral
key pair, where A computes its shared secret from B's exported 64-byte
public key and B from A's, both reach `KX_STATE_KEY_ESTABLISHED` and
obtain identical shared secrets. -/
theorem kx_shared_secret_symmetric {Point : Type} [AddCommMonoid Point]
    (G : Point) (xCoord rawCoords : Point → List Nat)
    (decodeRaw : List Nat → Option Point)
    (hround : ∀ q : Point, decodeRaw (rawCoords q) = some q)
    (dA dB : Nat) (sA sB : KxSession Point)
    (hA : sA.initialized = true) (hB : sB.initialized = true)
    (pubA pubB : List Nat)
    (hpA : KeyExchangeManager.getPublicKey rawCoords
        (KeyExchangeManager.generateKeyPair G true true dA sA).2 =
      some pubA)
    (hpB : KeyExchangeManager.getPublicKey rawCoords
        (KeyExchangeManager.generateKeyPair G true true dB sB).2 =
      some pubB) :
    (KeyExchangeManager.computeSharedSecret xCoord decodeRaw pubB
        (KeyExchangeManager.generateKeyPair G true true dA sA).2).2.state =
      KxState.keyEstablished ∧
    (KeyExchangeManager.computeSharedSecret xCoord decodeRaw pubA
        (KeyExchangeManager.generateKeyPair G true true dB sB).2).2.state =
      KxState.keyEstablished ∧
    KeyExchangeManager.getSharedSecret
        (KeyExchangeManager.computeSharedSecret xCoord decodeRaw pubB
          (KeyExchangeManager.generateKeyPair G true true dA sA).2).2 =
      KeyExchangeManager.getSharedSecret
        (KeyExchangeManager.computeSharedSecret xCoord decodeRaw pubA
          (KeyExchangeManager.generateKeyPair G true true dB sB).2).2 ∧
    KeyExchangeManager.getSharedSecret
        (KeyExchangeManager.computeSharedSecret xCoord decodeRaw pubB
          (KeyExchangeManager.generateKeyPair G true true dA sA).2).2 =
      some (xCoord ((dA * dB) • G)) := by
  obtain ⟨stA, iA, dA0, QA0, ssA⟩ := sA
  obtain ⟨stB, iB, dB0, QB0, ssB⟩ := sB
  have hA' : iA = true := hA
  have hB' : iB = true := hB
  subst hA'
  subst hB'
  have hcompute : ∀ (st0 : KxState) (d0 : Nat) (Q0 : Option Point)
      (ss : List Nat) (d : Nat) (qpeer : Point),
      KeyExchangeManager.computeSharedSecret xCoord decodeRaw
        (rawCoords qpeer)
        (KeyExchangeManager.generateKeyPair G true true d
          ⟨st0, true, d0, Q0, ss⟩).2 =
      (true, ⟨KxState.keyEstablished, true, d, some (d • G),
        xCoord (d • qpeer)⟩) := by
    intro st0 d0 Q0 ss d qpeer
    unfold KeyExchangeManager.computeSharedSecret
    have hread : ecpPointReadBinary decodeRaw (4 :: rawCoords qpeer) =
        some qpeer := by
      show decodeRaw (rawCoords qpeer) = some qpeer
      exact hround qpeer
    rw [hread]
    rfl
  have hpubA : pubA = rawCoords (dA • G) := by
    have h : KeyExchangeManager.getPublicKey rawCoords
        (KeyExchangeManager.generateKeyPair G true true dA
          ⟨stA, true, dA0, QA0, ssA⟩).2 = some (rawCoords (dA • G)) := rfl
    rw [h] at hpA
    exact (Option.some.inj hpA).symm
  have hpubB : pubB = rawCoords (dB • G) := by
    have h : KeyExchangeManager.getPublicKey rawCoords
        (KeyExchangeManager.generateKeyPair G true true dB
          ⟨stB, true, dB0, QB0, ssB⟩).2 = some (rawCoords (dB • G)) := rfl
    rw [h] at hpB
    exact (Option.some.inj hpB).symm
  subst hpubA
  subst hpubB
  rw [hcompute stA dA0 QA0 ssA dA (dB • G),
    hcompute stB dB0 QB0 ssB dB (dA • G)]
  refine ⟨rfl, rfl, ?_, ?_⟩
  · show some (xCoord (dA • dB • G)) = some (xCoord (dB • dA • G))
    rw [smul_smul, smul_smul, Nat.mul_comm dA dB]
  · show some (xCoord (dA • dB • G)) = some (xCoord ((dA * dB) • G))
    rw [smul_smul]

/-- Witness for `kx_shared_secret_symmetric` on the additive monoid `ℕ`. -/
theorem kx_shared_secret_symmetric_witness :
    KeyExchangeManager.getSharedSecret
        (KeyExchangeManager.computeSharedSecret (fun n => [n])
          (fun l => match l with | [n] => some n | _ => none) [10]
          (KeyExchangeManager.generateKeyPair (2 : Nat) true true 3
            ⟨KxState.idle, true, 0, none, []⟩).2).2 =
      KeyExchangeManager.getSharedSecret
        (KeyExchangeManager.computeSharedSecret (fun n => [n])
          (fun l => match l with | [n] => some n | _ => none) [6]
          (KeyExchangeManager.generateKeyPair (2 : Nat) true true 5
            ⟨KxState.idle, true, 0, none, []⟩).2).2 := by
  have h := @kx_shared_secret_symmetric Nat _ 2 (fun n => [n])
    (fun n => [n]) (fun l => match l with | [n] => some n | _ => none)
    (fun q => rfl) 3 5 ⟨KxState.idle, true, 0, none, []⟩
    ⟨KxState.idle, true, 0, none, []⟩ rfl rfl [6] [10] rfl rfl
  exact h.2.2.1

/-! ## Theorems: the inbound pipeline (claims C1, C2) -/

/-- The encryption step of the pipeline never calls the rate limiter. -/
lemma encStep_no_rateCheck (block hmacFn : List Nat → List Nat → List Nat)
    (e : PipeEnv) (pkt : Packet) :
    ∀ ev ∈ (encStep block hmacFn e pkt).2.2, ev.isRateCheck = false := by
  intro ev hev
  unfold encStep at hev
  repeat' split at hev
  all_goals fin_cases hev <;> rfl

/-- Every control-frame trace starts with the rate-limiter call and
contains no further rate-limiter call. -/
lemma onDataRecv_events_shape (block hmacFn : List Nat → List Nat → List Nat)
    (packetIsValid : Packet → Bool) (now : Nat) (pkt : Packet)
    (e : PipeEnv) :
    ∃ rest : List PipeEvent,
      (onDataRecvControl block hmacFn packetIsValid now pkt e).events =
        PipeEvent.rateCheck pkt.mode :: rest ∧
      ∀ ev ∈ rest, ev.isRateCheck = false := by
  unfold onDataRecvControl
  dsimp only
  split
  · refine ⟨[.failsafeRecord false], rfl, ?_⟩
    intro ev hev
    simp only [List.mem_singleton] at hev
    subst hev
    rfl
  · split
    · refine ⟨_, rfl, ?_⟩
      intro ev hev
      rcases List.mem_append.mp hev with h | h
      · exact encStep_no_rateCheck block hmacFn _ pkt ev h
      · simp only [List.mem_cons, List.not_mem_nil, or_false] at h
        rcases h with rfl | rfl | rfl <;> rfl
    · refine ⟨_, rfl, ?_⟩
      intro ev hev
      rcases List.mem_append.mp hev with h | h
      · rcases List.mem_append.mp h with h2 | h2
        · exact encStep_no_rateCheck block hmacFn _ pkt ev h2
        · split at h2
          · simp only [List.mem_singleton] at h2
            subst h2
            rfl
          · simp at h2
      · simp only [List.mem_singleton] at h
        subst h
        rfl

/-- Claim C1: for every control frame the rate limiter is called exactly
once, with the frame's mode byte as the command tag, before any
decryption, HMAC validation or structural validation (it is the first
event of the trace); and whenever it returns anything other than
`Allowed`, the frame is only reported to the failsafe as
received-but-not-authenticated — nothing is decrypted or validated,
nothing is forwarded, and the last-known-good packet is unchanged. -/
theorem pipeline_rate_limit_first
    (block hmacFn : List Nat → List Nat → List Nat)
    (packetIsValid : Packet → Bool) (now : Nat) (pkt : Packet)
    (e : PipeEnv) :
    (onDataRecvControl block hmacFn packetIsValid now pkt e).events.head? =
      some (PipeEvent.rateCheck pkt.mode) ∧
    ((onDataRecvControl block hmacFn packetIsValid now pkt e).events.countP
      PipeEvent.isRateCheck) = 1 ∧
    ((RateLimitManager_checkCommand now pkt.mode e.rl).1 ≠
        RateLimitStatus.allowed →
      (onDataRecvControl block hmacFn packetIsValid now pkt e).events =
        [PipeEvent.rateCheck pkt.mode, PipeEvent.failsafeRecord false] ∧
      (onDataRecvControl block hmacFn packetIsValid now pkt e).forwarded =
        none ∧
      (onDataRecvControl block hmacFn packetIsValid now pkt
          e).env.failsafe =
        Failsafe.recordPacketReceived now now false e.failsafe ∧
      (onDataRecvControl block hmacFn packetIsValid now pkt
          e).env.latestPacket = e.latestPacket ∧
      (onDataRecvControl block hmacFn packetIsValid now pkt e).env.rl =
        (RateLimitManager_checkCommand now pkt.mode e.rl).2) := by
  obtain ⟨rest, hev, hno⟩ :=
    onDataRecv_events_shape block hmacFn packetIsValid now pkt e
  refine ⟨?_, ?_, ?_⟩
  · rw [hev]
    rfl
  · rw [hev, List.countP_cons]
    have h0 : rest.countP PipeEvent.isRateCheck = 0 :=
      List.countP_eq_zero.mpr (fun a ha => by simp [hno a ha])
    simp [h0, PipeEvent.isRateCheck]
  · intro hrc
    unfold onDataRecvControl
    dsimp only
    rw [if_pos hrc]
    exact ⟨rfl, rfl, rfl, rfl, rfl⟩

/-- Witness for `pipeline_rate_limit_first`: an uninitialized rate limiter
returns `Blocked`, and the frame is dropped with only a failsafe report. -/
theorem pipeline_rate_limit_first_witness :
    (onDataRecvControl (fun _ c => c) (fun _ _ => []) (fun _ => true) 5
        ⟨1, 1, List.replicate 10 0, 0, 0, [], [], 0⟩
        ⟨rateLimitState0, encState0, hmacState0, false, Failsafe.mk0,
          ⟨1, 1, List.replicate 10 0, 0, 0, [], [], 0⟩⟩).events =
      [PipeEvent.rateCheck 0, PipeEvent.failsafeRecord false] ∧
    (onDataRecvControl (fun _ c => c) (fun _ _ => []) (fun _ => true) 5
        ⟨1, 1, List.replicate 10 0, 0, 0, [], [], 0⟩
        ⟨rateLimitState0, encState0, hmacState0, false, Failsafe.mk0,
          ⟨1, 1, List.replicate 10 0, 0, 0, [], [], 0⟩⟩).forwarded =
      none := by
  have h := pipeline_rate_limit_first (fun _ c => c) (fun _ _ => [])
    (fun _ => true) 5 ⟨1, 1, List.replicate 10 0, 0, 0, [], [], 0⟩
    ⟨rateLimitState0, encState0, hmacState0, false, Failsafe.mk0,
      ⟨1, 1, List.replicate 10 0, 0, 0, [], [], 0⟩⟩
  have h3 := h.2.2 (by decide)
  exact ⟨h3.1, h3.2.1⟩

/-- Claim C2: a control frame whose encryption flag is not set is rejected
outright whenever the persisted configuration enables encryption or the
cipher already holds an established session key: the failsafe is told the
packet was received but not authenticated, nothing is forwarded to the
vehicle collaborator, and the last-known-good packet is unchanged. -/
theorem pipeline_rejects_unencrypted_in_secure_mode
    (block hmacFn : List Nat → List Nat → List Nat)
    (packetIsValid : Packet → Bool) (now : Nat) (pkt : Packet) (e : PipeEnv)
    (hflag : pkt.encryptionFlag = 0)
    (hsec : e.secEncryptionEnabled = true ∨
      EncryptionManager_isReady e.enc = true) :
    (onDataRecvControl block hmacFn packetIsValid now pkt e).forwarded =
      none ∧
    (onDataRecvControl block hmacFn packetIsValid now pkt e).env.failsafe =
      Failsafe.recordPacketReceived now now false e.failsafe ∧
    (onDataRecvControl block hmacFn packetIsValid now pkt
        e).env.latestPacket = e.latestPacket := by
  have hstep : ∀ e' : PipeEnv,
      e'.secEncryptionEnabled = e.secEncryptionEnabled → e'.enc = e.enc →
      encStep block hmacFn e' pkt = (false, pkt.payload, []) := by
    intro e' h1 h2
    unfold encStep
    have h01 : ¬((0 : Nat) = 1) := by decide
    rw [hflag, if_neg h01, h1, h2]
    have htrue : (e.secEncryptionEnabled ||
        EncryptionManager_isReady e.enc) = true := by
      rcases hsec with h | h <;> simp [h]
    rw [if_pos htrue]
  unfold onDataRecvControl
  dsimp only
  split
  · exact ⟨rfl, rfl, rfl⟩
  · rw [hstep
      { e with rl := (RateLimitManager_checkCommand now pkt.mode e.rl).2 }
      rfl rfl]
    have hff : ¬(((false, pkt.payload,
        ([] : List PipeEvent)).1 && packetIsValid
          { pkt with payload := (false, pkt.payload,
            ([] : List PipeEvent)).2.1 }) = true) := by
      simp
    rw [if_neg hff]
    exact ⟨rfl, rfl, rfl⟩

/-- Witness for `pipeline_rejects_unencrypted_in_secure_mode`: cipher
session established, rate limiter full, unencrypted frame rejected. -/
theorem pipeline_rejects_unencrypted_witness :
    (onDataRecvControl (fun _ c => c) (fun _ _ => []) (fun _ => true) 5
        ⟨1, 1, List.replicate 10 2, 0, 0, [], [], 0⟩
        ⟨(RateLimitManager_init 0 100 rateLimitState0).2,
          { key := List.replicate 32 0, initialized := true }, hmacState0,
          false, Failsafe.mk0,
          ⟨1, 1, List.replicate 10 0, 0, 0, [], [], 0⟩⟩).forwarded =
      none ∧
    (onDataRecvControl (fun _ c => c) (fun _ _ => []) (fun _ => true) 5
        ⟨1, 1, List.replicate 10 2, 0, 0, [], [], 0⟩
        ⟨(RateLimitManager_init 0 100 rateLimitState0).2,
          { key := List.replicate 32 0, initialized := true }, hmacState0,
          false, Failsafe.mk0,
          ⟨1, 1, List.replicate 10 0, 0, 0, [], [], 0⟩⟩).env.latestPacket =
      ⟨1, 1, List.replicate 10 0, 0, 0, [], [], 0⟩ := by
  have h := pipeline_rejects_unencrypted_in_secure_mode (fun _ c => c)
    (fun _ _ => []) (fun _ => true) 5
    ⟨1, 1, List.replicate 10 2, 0, 0, [], [], 0⟩
    ⟨(RateLimitManager_init 0 100 rateLimitState0).2,
      { key := List.replicate 32 0, initialized := true }, hmacState0,
      false, Failsafe.mk0, ⟨1, 1, List.replicate 10 0, 0, 0, [], [], 0⟩⟩
    rfl (Or.inr rfl)
  exact ⟨h.1, h.2.2⟩
